import Mathlib

/-!
Verification development for the Signal channel adapter of nanoclaw.

Strings manipulated by the text style codec are modelled as lists of UTF-16
code units (`List Nat`), matching the JavaScript string model the code
operates on.  Higher-level message processing uses Lean `String`s.
-/

namespace NanoClaw

set_option maxRecDepth 8192

/-- Inline style kinds supported by the Signal text style codec
(src/signal-formatting.ts, `TextStyle.style`). -/
inductive Style where
  | BOLD
  | ITALIC
  | SPOILER
  | STRIKETHROUGH
  | MONOSPACE
deriving DecidableEq, Repr

/-- A style span over the stripped text, in UTF-16 code units
(src/signal-formatting.ts, `TextStyle`). -/
structure TextStyle where
  style : Style
  start : Nat
  length : Nat
deriving DecidableEq, Repr

/-- Result of `parseSignalStyles`: stripped text plus spans
(src/signal-formatting.ts, `StyledText`). -/
structure StyledText where
  text : List Nat
  textStyle : List TextStyle
deriving DecidableEq, Repr

/-- Internal marker match record (src/signal-formatting.ts, `MarkerMatch`). -/
structure MarkerMatch where
  openStart : Nat
  openEnd : Nat
  closeStart : Nat
  closeEnd : Nat
  style : Style
deriving DecidableEq, Repr

/-- `s[i] === c` on UTF-16 code units; false when out of range. -/
def charEq (s : List Nat) (i : Nat) (c : Nat) : Bool :=
  match s.get? i with
  | some x => x == c
  | none => false

/-- `i < s.length && s[i] !== c`. -/
def charNe (s : List Nat) (i : Nat) (c : Nat) : Bool :=
  match s.get? i with
  | some x => x != c
  | none => false

/-- The regex `\w` class on a UTF-16 code unit: `[A-Za-z0-9_]`. -/
def isWordCU (c : Nat) : Bool :=
  decide ((48 ≤ c ∧ c ≤ 57) ∨ (65 ≤ c ∧ c ≤ 90) ∨ c = 95 ∨ (97 ≤ c ∧ c ≤ 122))

/-- Whether `s[i]` exists and is a `\w` character. -/
def charIsWord (s : List Nat) (i : Nat) : Bool :=
  match s.get? i with
  | some x => isWordCU x
  | none => false

/-- First index `≥ k` whose code unit is `d`. -/
def findFrom (d : Nat) (s : List Nat) (k : Nat) : Option Nat :=
  (List.range' k (s.length - k)).find? (fun i => charEq s i d)

/-- All indices whose code unit is `d`. -/
def charIdxs (d : Nat) (s : List Nat) : List Nat :=
  (List.range s.length).filter (fun i => charEq s i d)

/-- Successive-match positions of the regex for backtick code spans
(<tick>([^<tick>]+)<tick> with the g flag): consecutive backtick indices pair
up whenever at least one content character lies between them; an adjacent
pair (empty content) fails, and the engine retries with the second backtick
as a candidate opener.  Each returned pair is (match start, match end). -/
def pairTicksF : Nat → List Nat → List (Nat × Nat)
  | 0, _ => []
  | fuel+1, l =>
    match l with
    | b1 :: b2 :: rest =>
      if b1 + 1 < b2 then (b1, b2 + 1) :: pairTicksF fuel rest
      else pairTicksF fuel (b2 :: rest)
    | _ => []

/-- Wrapper supplying enough fuel (one unit per backtick index). -/
def pairTicks (l : List Nat) : List (Nat × Nat) := pairTicksF l.length l

/-- Raw matches of the MONOSPACE pattern over the input. -/
def monoPairs (s : List Nat) : List (Nat × Nat) :=
  pairTicks (charIdxs 96 s)

/-- One attempt of a double-delimiter pattern (`||x||` or `~~x~~`) starting
at index `i`: two delimiters, a nonempty run of non-delimiter content, two
delimiters.  Returns the index past the match on success. -/
def attemptDbl (d : Nat) (s : List Nat) (i : Nat) : Option Nat :=
  if charEq s i d && charEq s (i+1) d && charNe s (i+2) d then
    match findFrom d s (i+2) with
    | some j => if charEq s (j+1) d then some (j+2) else none
    | none => none
  else none

/-- One attempt of the single-delimiter lookaround patterns for `*x*` and
`~x~`: opening delimiter not adjacent to another delimiter, lazy non-delimiter
content, closing delimiter not adjacent to another delimiter. -/
def attemptSingle (d : Nat) (s : List Nat) (i : Nat) : Option Nat :=
  if charEq s i d && (i == 0 || charNe s (i-1) d) && charNe s (i+1) d then
    match findFrom d s (i+2) with
    | some j => if charNe s (j-1) d && !(charEq s (j+1) d) then some (j+1) else none
    | none => none
  else none

/-- One attempt of the italic pattern `(?<!\w)_([^_]+?)_(?!\w)` at index `i`. -/
def attemptItalic (s : List Nat) (i : Nat) : Option Nat :=
  if charEq s i 95 && (i == 0 || !(charIsWord s (i-1))) then
    match findFrom 95 s (i+1) with
    | some j => if i + 1 < j && !(charIsWord s (j+1)) then some (j+1) else none
    | none => none
  else none

/-- Drive an attempt function over the string the way a global regex `exec`
loop does: on success record the match and resume at its end, on failure
advance one position.  The fuel is `s.length + 1`, enough to visit every
start position. -/
def scanPairs (attempt : Nat → Option Nat) : Nat → Nat → List (Nat × Nat)
  | 0, _ => []
  | fuel+1, i =>
    match attempt i with
    | some e => (i, e) :: scanPairs attempt fuel e
    | none => scanPairs attempt fuel (i+1)

/-- Turn raw (start, end) regex matches into `MarkerMatch` records, as in the
body of the pattern loop (`openEnd = openStart + markerLen`, etc.). -/
def mkMatches (style : Style) (markerLen : Nat) (ps : List (Nat × Nat)) :
    List MarkerMatch :=
  ps.map (fun p => ⟨p.1, p.1 + markerLen, p.2 - markerLen, p.2, style⟩)

/-- The six patterns of `parseSignalStyles`, in source order (code spans
first, then spoiler, strikethrough double and single, bold, italic), each
already run over the whole input. -/
def rawMatchLists (input : List Nat) : List (List MarkerMatch) :=
  [ mkMatches .MONOSPACE 1 (monoPairs input)
  , mkMatches .SPOILER 2 (scanPairs (attemptDbl 124 input) (input.length + 1) 0)
  , mkMatches .STRIKETHROUGH 2 (scanPairs (attemptDbl 126 input) (input.length + 1) 0)
  , mkMatches .STRIKETHROUGH 1 (scanPairs (attemptSingle 126 input) (input.length + 1) 0)
  , mkMatches .BOLD 1 (scanPairs (attemptSingle 42 input) (input.length + 1) 0)
  , mkMatches .ITALIC 1 (scanPairs (attemptItalic input) (input.length + 1) 0) ]

/-- Accumulated state of the pattern loop: accepted matches, claimed marker
indices, and code-span-protected content indices. -/
structure ScanState where
  accepted : List MarkerMatch
  markers : List Nat
  prot : List Nat
deriving Repr

/-- Half-open index range `[lo, hi)` as a list. -/
def rangeSet (lo hi : Nat) : List Nat := List.range' lo (hi - lo)

/-- The overlap check of the pattern loop: does any index of the candidate
match's full range touch a claimed marker or protected index? -/
def overlapsClaimed (st : ScanState) (lo hi : Nat) : Bool :=
  (rangeSet lo hi).any (fun i => st.markers.elem i || st.prot.elem i)

/-- One iteration of the inner pattern loop: discard the candidate if it
overlaps claimed indices, otherwise accept it, claim its delimiters, and for
code spans protect its interior. -/
def applyRaw (st : ScanState) (m : MarkerMatch) : ScanState :=
  if overlapsClaimed st m.openStart m.closeEnd then st
  else
    { accepted := st.accepted ++ [m]
    , markers := st.markers ++ rangeSet m.openStart m.openEnd
        ++ rangeSet m.closeStart m.closeEnd
    , prot := st.prot ++
        (if m.style = .MONOSPACE then rangeSet m.openEnd m.closeStart else []) }

/-- The whole match-collection phase of `parseSignalStyles`. -/
def collectMatches (input : List Nat) : ScanState :=
  (rawMatchLists input).foldl (fun st raws => raws.foldl applyRaw st) ⟨[], [], []⟩

/-- One step of building the stripped output and the original-to-stripped
index map: marker indices map to -1, others map to their output position. -/
def stripStep (markers : List Nat) (acc : List Int × List Nat) (c : Nat) :
    List Int × List Nat :=
  if markers.elem acc.1.length then (acc.1 ++ [(-1 : Int)], acc.2)
  else (acc.1 ++ [(acc.2.length : Int)], acc.2 ++ [c])

/-- Build (indexMap, out) for the input, skipping marker indices. -/
def buildOut (markers : List Nat) (input : List Nat) : List Int × List Nat :=
  input.foldl (stripStep markers) ([], [])

/-- The `while (lastContentIdx >= m.openEnd && indexMap[lastContentIdx] === -1)`
scan: walk down from `k` to the last content index mapped into the output;
`none` when the walk falls below `openEnd`. -/
def lastContent (indexMap : List Int) (openEnd : Nat) : Nat → Nat → Option Nat
  | 0, _ => none
  | fuel+1, k =>
    if k < openEnd then none
    else if indexMap.getD k (-1) == -1 then
      if k == 0 then none
      else lastContent indexMap openEnd fuel (k - 1)
    else some k

/-- The span computed for one accepted match, if any: remap the first content
index and the last content index through the index map and keep the span when
its length is positive. -/
def spanOfMatch (indexMap : List Int) (m : MarkerMatch) : Option TextStyle :=
  if m.closeStart == 0 then none
  else
    (lastContent indexMap m.openEnd m.closeStart (m.closeStart - 1)).bind
      (fun last =>
        if indexMap.getD m.openEnd (-1) == -1 then none
        else if 0 < indexMap.getD last (-1) + 1 - indexMap.getD m.openEnd (-1) then
          some ⟨m.style, (indexMap.getD m.openEnd (-1)).toNat,
            (indexMap.getD last (-1) + 1 - indexMap.getD m.openEnd (-1)).toNat⟩
        else none)

/-- The span-building loop over all accepted matches. -/
def buildSpans (indexMap : List Int) (ms : List MarkerMatch) : List TextStyle :=
  ms.foldl (fun acc m =>
    match spanOfMatch indexMap m with
    | some sp => acc ++ [sp]
    | none => acc) []

/-- Stable insertion by start offset (the comparator `a.start - b.start`). -/
def insertSpan (x : TextStyle) : List TextStyle → List TextStyle
  | [] => [x]
  | y :: ys => if y.start ≤ x.start then y :: insertSpan x ys else x :: y :: ys

/-- Stable sort of the spans by start offset. -/
def sortSpans (l : List TextStyle) : List TextStyle :=
  l.foldl (fun acc x => insertSpan x acc) []

/-- The text style codec (src/signal-formatting.ts, `parseSignalStyles`),
over UTF-16 code units. -/
def parseSignalStyles (input : List Nat) : StyledText :=
  if input.isEmpty then ⟨input, []⟩
  else if (collectMatches input).accepted.isEmpty then ⟨input, []⟩
  else
    ⟨(buildOut (collectMatches input).markers input).2
    , sortSpans (buildSpans (buildOut (collectMatches input).markers input).1
        (collectMatches input).accepted)⟩

/-- Encode an ASCII/BMP Lean string as UTF-16 code units (test inputs only
use BMP characters, where code unit = code point). -/
def cu (s : String) : List Nat := s.toList.map Char.toNat

/-! ## JavaScript string helpers used by the channel code -/

/-- The character classes removed by `String.prototype.trim`. -/
def jsSpaceChar (c : Char) : Bool :=
  decide (c.toNat = 32 ∨ c.toNat = 9 ∨ c.toNat = 10 ∨ c.toNat = 13 ∨
    c.toNat = 11 ∨ c.toNat = 12 ∨ c.toNat = 160 ∨ c.toNat = 0xFEFF)

/-- `s.trim()`. -/
def jsTrim (s : String) : String :=
  String.mk (((s.data.dropWhile jsSpaceChar).reverse.dropWhile jsSpaceChar).reverse)

/-- ASCII lowercasing of one character (sufficient for the `/chatid` check). -/
def asciiLower (c : Char) : Char :=
  if 65 ≤ c.toNat ∧ c.toNat ≤ 90 then Char.ofNat (c.toNat + 32) else c

/-- `s.toLowerCase()` restricted to ASCII letters. -/
def jsLower (s : String) : String := String.mk (s.data.map asciiLower)

/-- `a || b` on a possibly-absent string, with the empty string falsy. -/
def jsOrStr (a : Option String) (b : String) : String :=
  match a with
  | some s => if s = "" then b else s
  | none => b

/-- `a || b` where both operands may be absent. -/
def jsOrOpt (a b : Option String) : Option String :=
  match a with
  | some s => if s = "" then b else some s
  | none => b

/-- Normalize a string option by JS truthiness: present and nonempty. -/
def truthyStr (a : Option String) : Option String :=
  match a with
  | some s => if s = "" then none else some s
  | none => none

/-! ## Mention resolution (src/channels/signal.ts, `resolveMentions`) -/

/-- Configuration constants read from src/config.ts. -/
structure SignalConfig where
  phoneNumber : String
  assistantName : String
deriving DecidableEq

/-- One mention descriptor `{start, length, uuid, number, name}` as decoded
from the wire payload. -/
structure Mention where
  start : Nat
  length : Option Nat
  number : Option String
  name : Option String
deriving DecidableEq

/-- Stable descending insertion by start offset, matching the stable
JS sort with comparator `(a, b) => b.start - a.start`. -/
def insMentionDesc (x : Mention) : List Mention → List Mention
  | [] => [x]
  | y :: ys => if y.start < x.start then x :: y :: ys else y :: insMentionDesc x ys

/-- `[...mentions].sort((a, b) => b.start - a.start)`. -/
def sortMentionsDesc (ms : List Mention) : List Mention :=
  ms.foldl (fun acc x => insMentionDesc x acc) []

/-- The `@name` chosen for one mention: the assistant name for the local
account's own number, else name, else number, else "unknown". -/
def mentionName (cfg : SignalConfig) (m : Mention) : String :=
  if m.number = some cfg.phoneNumber then cfg.assistantName
  else jsOrStr m.name (jsOrStr m.number "unknown")

/-- One splice `result.slice(0, start) + "@" + name + result.slice(start + length)`,
with `(mention.length) || 1` as the replaced width. -/
def applyMention (cfg : SignalConfig) (r : List Char) (m : Mention) : List Char :=
  let len := match m.length with
    | some n => if n = 0 then 1 else n
    | none => 1
  r.take m.start ++ ('@' :: (mentionName cfg m).data) ++ r.drop (m.start + len)

/-- Descriptor-based replacement pass, in descending start order. -/
def applyMentions (cfg : SignalConfig) (t : String) (ms : List Mention) : String :=
  String.mk ((sortMentionsDesc ms).foldl (applyMention cfg) t.data)

/-- The U+FFFC object-replacement sentinel. -/
def fffc : Char := Char.ofNat 0xFFFC

/-- `result.includes("￼")`. -/
def hasFFFC (s : String) : Bool := s.data.any (fun c => c = fffc)

/-- The fallback sweep: if any U+FFFC remains, replace each with
`@ASSISTANT_NAME`. -/
def sweepFFFC (cfg : SignalConfig) (r : String) : String :=
  if hasFFFC r then
    String.mk (r.data.foldr
      (fun c acc => if c = fffc then '@' :: cfg.assistantName.data ++ acc else c :: acc) [])
  else r

/-- The descriptor-based phase shared by both versions of `resolveMentions`:
apply the sorted descriptors when at least one is present. -/
def descriptorResult (cfg : SignalConfig) (t : String)
    (mentions : Option (List Mention)) : String :=
  match mentions with
  | some ms => if 0 < ms.length then applyMentions cfg t ms else t
  | none => t

/-- The current `resolveMentions` (src/channels/signal.ts lines 24-57):
descriptor pass, then the U+FFFC fallback sweep. -/
def resolveMentions (cfg : SignalConfig) (text : Option String)
    (mentions : Option (List Mention)) : Option String :=
  match text with
  | none => none
  | some t =>
    if t = "" then some t
    else some (sweepFFFC cfg (descriptorResult cfg t mentions))

/-- The earlier `resolveMentions` (src/unnamed/part_002 lines 21-45):
descriptor pass only, no fallback sweep. -/
def resolveMentionsOld (cfg : SignalConfig) (text : Option String)
    (mentions : Option (List Mention)) : Option String :=
  match text with
  | none => none
  | some t =>
    if t = "" then some t
    else
      match mentions with
      | some ms => if 0 < ms.length then some (applyMentions cfg t ms) else some t
      | none => some t

/-! ## Message decoding (src/channels/signal.ts, `processMessage` and
`handleEnvelope`).  File-system access, the sender-name database, audio
transcription and clock reads are modelled as an explicit environment. -/

/-- `groupInfo` payload. -/
structure GroupInfo where
  groupId : Option String
  groupName : Option String
deriving DecidableEq

/-- One raw attachment record from the wire. -/
structure RawAttachment where
  id : Option String
  contentType : Option String
  filename : Option String
  size : Option Nat
deriving DecidableEq

/-- Raw quote payload. -/
structure RawQuote where
  authorNumber : Option String
  authorUuid : Option String
  author : Option String
  text : Option String
deriving DecidableEq

/-- Raw reaction payload (`isRemove` absent behaves as false). -/
structure RawReaction where
  emoji : Option String
  isRemove : Bool
  targetAuthorNumber : Option String
  targetAuthorUuid : Option String
  targetAuthor : Option String
  targetSentTimestamp : Option Nat
deriving DecidableEq

/-- The argument record handed from `handleEnvelope` to `processMessage`. -/
structure ProcMsg where
  sourceId : Option String
  sourceName : String
  timestamp : Option Nat
  message : Option String
  groupInfo : Option GroupInfo
  isFromMe : Bool
  rawAttachments : Option (List RawAttachment)
  rawQuote : Option RawQuote
  rawReaction : Option RawReaction
deriving DecidableEq

/-- A resolved attachment (src/types.ts, `Attachment`). -/
structure Attachment where
  contentType : String
  filename : Option String
  hostPath : String
  containerPath : String
  size : Option Nat
deriving DecidableEq, Repr

/-- The quote object forwarded on the message record. -/
structure BuiltQuote where
  author : String
  text : String
deriving DecidableEq, Repr

/-- The reaction object forwarded on the message record. -/
structure BuiltReaction where
  emoji : String
  targetAuthor : String
  targetTimestamp : String
deriving DecidableEq, Repr

/-- The record handed to `opts.onMessage`. -/
structure InMsg where
  id : String
  chat_jid : String
  sender : String
  sender_name : String
  content : String
  timestamp : String
  is_from_me : Bool
  is_bot_message : Bool
  attachments : Option (List Attachment)
  quote : Option BuiltQuote
  reaction : Option BuiltReaction
deriving DecidableEq, Repr

/-- The arguments of the `opts.onChatMetadata` call. -/
structure ChatMeta where
  jid : String
  timestamp : String
  groupName : Option String
  channel : String
  isGroup : Bool
deriving DecidableEq, Repr

/-- Observable effects of one `processMessage` run: an optional `/chatid`
reply (target and text), an optional metadata notification, and an optional
delivered message. -/
structure Outcome where
  chatIdReply : Option (String × String) := none
  metadata : Option ChatMeta := none
  delivered : Option InMsg := none
deriving DecidableEq, Repr

/-- External collaborators of `processMessage`: DB name lookup, the
registration set, the attachments directory listing (`none` models a failed
`readdirSync`), transcription, and time formatting. -/
structure ProcEnv where
  lookupSenderName : String → Option String
  registered : String → Bool
  cliDir : Option String
  attachmentFiles : Option (List String)
  transcribe : String → Option String
  isoOf : Nat → String
  nowIso : String
  now : Nat

/-- JID determination: prefer a truthy `groupInfo.groupId`, else a truthy
`sourceId`; `none` when neither is available (the message is dropped). -/
def groupIdOf (m : ProcMsg) : Option String :=
  match m.groupInfo with
  | some gi => truthyStr gi.groupId
  | none => none

/-- The `(chatJid, isGroup)` pair computed at the top of `processMessage`. -/
def jidOf (m : ProcMsg) : Option (String × Bool) :=
  match groupIdOf m with
  | some g => some ("signal:" ++ g, true)
  | none =>
    match truthyStr m.sourceId with
    | some s => some ("signal:" ++ s, false)
    | none => none

/-- `msg.timestamp ? new Date(msg.timestamp).toISOString() : new Date().toISOString()`. -/
def isoTimestampOf (env : ProcEnv) (m : ProcMsg) : String :=
  match m.timestamp with
  | some t => if t = 0 then env.nowIso else env.isoOf t
  | none => env.nowIso

/-- `msg.message && msg.message.trim().toLowerCase() === "/chatid"`. -/
def isChatIdCommand (m : Option String) : Bool :=
  match m with
  | some t => t != "" && jsLower (jsTrim t) == "/chatid"
  | none => false

/-- Resolution of one raw attachment against the attachments directory:
prefix-match the id against the directory listing; drop the attachment when
the id is falsy, the directory is unreadable, or no file matches. -/
def buildAttachment (env : ProcEnv) (dir : String) (att : RawAttachment) :
    Option Attachment :=
  match truthyStr att.id with
  | none => none
  | some id =>
    match env.attachmentFiles with
    | none => none
    | some files =>
      match files.find? (fun f => f.startsWith id) with
      | none => none
      | some m => some
        { contentType := jsOrStr att.contentType "application/octet-stream"
        , filename := some (jsOrStr att.filename m)
        , hostPath := dir ++ "/attachments/" ++ m
        , containerPath := "/workspace/signal-attachments/" ++ m
        , size := att.size }

/-- The attachment-building block: runs only when `rawAttachments` is present
and `SIGNAL_CLI_DIR` is truthy; the result is `undefined` unless at least one
attachment resolved. -/
def buildAttachments (env : ProcEnv) (raws : Option (List RawAttachment)) :
    Option (List Attachment) :=
  match raws, env.cliDir with
  | some ratts, some dir =>
    let built := ratts.filterMap (buildAttachment env dir)
    if 0 < built.length then some built else none
  | _, _ => none

/-- The quote object built whenever `rawQuote` is present. -/
def buildQuote (env : ProcEnv) (rq : RawQuote) : BuiltQuote :=
  let quoteAuthorId :=
    jsOrStr rq.authorNumber (jsOrStr rq.authorUuid (jsOrStr rq.author "unknown"))
  { author := jsOrStr (env.lookupSenderName quoteAuthorId) quoteAuthorId
  , text := jsOrStr rq.text "" }

/-- The reaction object: materialized only for a truthy emoji with the
removal flag clear. -/
def buildReaction (env : ProcEnv) (rr : RawReaction) : Option BuiltReaction :=
  match truthyStr rr.emoji with
  | some emoji =>
    if rr.isRemove then none
    else some
      { emoji := emoji
      , targetAuthor := jsOrStr rr.targetAuthorNumber
          (jsOrStr rr.targetAuthorUuid (jsOrStr rr.targetAuthor "unknown"))
      , targetTimestamp := match rr.targetSentTimestamp with
          | some t => if t = 0 then "" else env.isoOf t
          | none => "" }
  | none => none

/-- `quote.text.length > 100 ? quote.text.slice(0, 100) + "..." : quote.text`. -/
def truncQuote (t : String) : String :=
  if 100 < t.length then String.mk (t.data.take 100) ++ "..." else t

/-- The quote context line pushed onto the content parts. -/
def quotePart (q : BuiltQuote) : String :=
  "[replying to " ++ q.author ++ ": " ++ truncQuote q.text ++ "]"

/-- The reaction line pushed onto the content parts. -/
def reactionPart (r : BuiltReaction) : String :=
  "[reacted " ++ r.emoji ++ " to message from " ++ r.targetAuthor ++ "]"

/-- `att.filename || att.contentType`. -/
def attachmentLabel (att : Attachment) : String :=
  jsOrStr att.filename att.contentType

/-- The generic attachment reference line. -/
def attachmentPart (att : Attachment) : String :=
  "[attachment: " ++ attachmentLabel att ++ " → " ++ att.containerPath ++ "]"

/-- Per-attachment content step: a truthy transcript of an audio attachment
replaces it with a voice annotation (attachment dropped); everything else is
forwarded unchanged with a reference line. -/
def attachmentStep (cfg : SignalConfig) (env : ProcEnv) (att : Attachment) :
    String × Option Attachment :=
  if att.contentType.startsWith "audio/" then
    match env.transcribe att.hostPath with
    | some t =>
      if t = "" then (attachmentPart att, some att)
      else ("@" ++ cfg.assistantName ++ " [Voice: " ++ t ++ "]", none)
    | none => (attachmentPart att, some att)
  else (attachmentPart att, some att)

/-- The quote forwarded on the record: built whenever `rawQuote` is present. -/
def builtQuoteOf (env : ProcEnv) (msg : ProcMsg) : Option BuiltQuote :=
  msg.rawQuote.map (buildQuote env)

/-- The reaction forwarded on the record. -/
def builtReactionOf (env : ProcEnv) (msg : ProcMsg) : Option BuiltReaction :=
  msg.rawReaction.bind (buildReaction env)

/-- The per-attachment results (content line, kept attachment) of the
attachment loop. -/
def attResultsOf (cfg : SignalConfig) (env : ProcEnv) (msg : ProcMsg) :
    List (String × Option Attachment) :=
  match buildAttachments env msg.rawAttachments with
  | some atts => atts.map (attachmentStep cfg env)
  | none => []

/-- The attachments field of the forwarded record: the kept attachments when
any survive, else `undefined`. -/
def keptAttachmentsOf (cfg : SignalConfig) (env : ProcEnv) (msg : ProcMsg) :
    Option (List Attachment) :=
  match buildAttachments env msg.rawAttachments with
  | some _ =>
    let kept := (attResultsOf cfg env msg).filterMap Prod.snd
    if 0 < kept.length then some kept else none
  | none => none

/-- The content parts, in push order: message text, quote line, reaction
line, attachment lines. -/
def contentPartsOf (cfg : SignalConfig) (env : ProcEnv) (msg : ProcMsg) :
    List String :=
  (match truthyStr msg.message with
    | some m => [m]
    | none => []) ++
  (match builtQuoteOf env msg with
    | some q => [quotePart q]
    | none => []) ++
  (match builtReactionOf env msg with
    | some r => [reactionPart r]
    | none => []) ++
  (attResultsOf cfg env msg).map Prod.fst

/-- `parts.join("\n")`. -/
def contentOf (cfg : SignalConfig) (env : ProcEnv) (msg : ProcMsg) : String :=
  String.intercalate "\n" (contentPartsOf cfg env msg)

/-- The number used in the synthetic message id: `msg.timestamp || Date.now()`. -/
def idNumOf (env : ProcEnv) (msg : ProcMsg) : Nat :=
  match msg.timestamp with
  | some t => if t = 0 then env.now else t
  | none => env.now

/-- The record handed to `opts.onMessage` for a registered chat with
nonempty content. -/
def deliveredRec (cfg : SignalConfig) (env : ProcEnv) (msg : ProcMsg)
    (chatJid : String) : InMsg :=
  { id := "signal-" ++ toString (idNumOf env msg)
  , chat_jid := chatJid
  , sender := jsOrStr msg.sourceId ""
  , sender_name := msg.sourceName
  , content := contentOf cfg env msg
  , timestamp := isoTimestampOf env msg
  , is_from_me := msg.isFromMe
  , is_bot_message := msg.isFromMe
  , attachments := keptAttachmentsOf cfg env msg
  , quote := builtQuoteOf env msg
  , reaction := builtReactionOf env msg }

/-- The metadata notification reported for every non-command message. -/
def metaOf (env : ProcEnv) (msg : ProcMsg) (chatJid : String) (isGroup : Bool) :
    ChatMeta :=
  ⟨chatJid, isoTimestampOf env msg, msg.groupInfo.bind (·.groupName), "signal",
    isGroup⟩

/-- `processMessage` (src/channels/signal.ts lines 390-569) as a pure
function from the message record and environment to its observable effects. -/
def processMessage (cfg : SignalConfig) (env : ProcEnv) (msg : ProcMsg) : Outcome :=
  match jidOf msg with
  | none => {}
  | some (chatJid, isGroup) =>
    if isChatIdCommand msg.message then
      { chatIdReply := some (chatJid, "Chat ID: " ++ chatJid) }
    else
      let meta := metaOf env msg chatJid isGroup
      if !(env.registered chatJid) then { metadata := some meta }
      else if jsTrim (contentOf cfg env msg) = "" then { metadata := some meta }
      else
        { metadata := some meta
        , delivered := some (deliveredRec cfg env msg chatJid) }

/-- `dataMessage` payload of an envelope. -/
structure DataMsg where
  message : Option String
  mentions : Option (List Mention)
  groupInfo : Option GroupInfo
  attachments : Option (List RawAttachment)
  quote : Option RawQuote
  reaction : Option RawReaction
deriving DecidableEq

/-- `syncMessage.sentMessage` payload of an envelope. -/
structure SentMsg where
  destinationNumber : Option String
  destinationUuid : Option String
  destination : Option String
  timestamp : Option Nat
  message : Option String
  mentions : Option (List Mention)
  groupInfo : Option GroupInfo
  attachments : Option (List RawAttachment)
  quote : Option RawQuote
  reaction : Option RawReaction
deriving DecidableEq

/-- `syncMessage` payload. -/
structure SyncMsg where
  sentMessage : Option SentMsg
deriving DecidableEq

/-- An inbound envelope as read off a `receive` notification. -/
structure Envelope where
  sourceNumber : Option String
  sourceUuid : Option String
  source : Option String
  sourceName : Option String
  timestamp : Option Nat
  dataMessage : Option DataMsg
  syncMessage : Option SyncMsg
deriving DecidableEq

/-- `handleEnvelope` (src/channels/signal.ts lines 336-388): normalize the
two inbound shapes into one `ProcMsg`; for the echo shape the chat id is the
destination number, else the destination UUID, else the envelope source. -/
def handleEnvelope (cfg : SignalConfig) (e : Envelope) : Option ProcMsg :=
  let sourceUuid := jsOrOpt e.sourceUuid e.source
  let sourceId := jsOrOpt e.sourceNumber sourceUuid
  let sourceName := jsOrStr e.sourceName (jsOrStr sourceId "Unknown")
  match e.dataMessage with
  | some dm => some
    { sourceId := sourceId
    , sourceName := sourceName
    , timestamp := e.timestamp
    , message := resolveMentions cfg dm.message dm.mentions
    , groupInfo := dm.groupInfo
    , isFromMe := false
    , rawAttachments := dm.attachments
    , rawQuote := dm.quote
    , rawReaction := dm.reaction }
  | none =>
    match e.syncMessage with
    | some sy =>
      match sy.sentMessage with
      | some sm =>
        let destUuid := jsOrOpt sm.destinationUuid sm.destination
        let chatId := jsOrOpt sm.destinationNumber (jsOrOpt destUuid sourceId)
        some
          { sourceId := chatId
          , sourceName := sourceName
          , timestamp := sm.timestamp.orElse (fun _ => e.timestamp)
          , message := resolveMentions cfg sm.message sm.mentions
          , groupInfo := sm.groupInfo
          , isFromMe := true
          , rawAttachments := sm.attachments
          , rawQuote := sm.quote
          , rawReaction := sm.reaction }
      | none => none
    | none => none

/-- Decode one envelope end to end: `handleEnvelope` followed by
`processMessage`; envelopes of neither shape have no effect. -/
def handleEnvelopeOutcome (cfg : SignalConfig) (env : ProcEnv) (e : Envelope) :
    Outcome :=
  match handleEnvelope cfg e with
  | some m => processMessage cfg env m
  | none => {}

/-! ## RPC call admission (src/channels/signal.ts, `rpcCall`) and the
outbound queue (`sendMessage`) -/

/-- Hard cap on outstanding pending calls. -/
def MAX_PENDING_RPC : Nat := 100

/-- Cap of the outbound delivery queue. -/
def MAX_OUTGOING_QUEUE : Nat := 1000

/-- The transport state touched by `rpcCall`: the correlation table keys (in
insertion order) and the id counter. -/
structure RpcState where
  pendingIds : List String
  rpcIdCounter : Nat
deriving DecidableEq, Repr

/-- How one `rpcCall` invocation settles synchronously. -/
inductive RpcOutcome where
  | rejectedCap
  | rejectedNotWritable
  | pendingRegistered (id : String)
deriving DecidableEq, Repr

/-- A serialized request line written to the subprocess stdin. -/
structure WireRequest where
  method : String
  id : String
deriving DecidableEq, Repr

/-- `rpcCall` (src/channels/signal.ts lines 599-634): reject at the cap
before allocating an id; otherwise register the pending call, then reject
and deregister if stdin is not writable, else write the request line. -/
def rpcCall (method : String) (st : RpcState) (writable : Bool) :
    RpcState × RpcOutcome × List WireRequest :=
  if MAX_PENDING_RPC ≤ st.pendingIds.length then (st, .rejectedCap, [])
  else
    let ctr := st.rpcIdCounter + 1
    let id := "rpc-" ++ toString ctr
    let afterSet := st.pendingIds ++ [id]
    if writable then
      (⟨afterSet, ctr⟩, .pendingRegistered id, [⟨method, id⟩])
    else
      (⟨afterSet.erase id, ctr⟩, .rejectedNotWritable, [])

/-- One queued outbound message. -/
structure QueuedMsg where
  jid : String
  text : String
  attachments : Option (List String)
deriving DecidableEq, Repr

/-- The enqueue step of `sendMessage` (src/channels/signal.ts lines 181-201):
drop the oldest entry when the queue is at capacity, then append. -/
def enqueueOutgoing (q : List QueuedMsg) (m : QueuedMsg) : List QueuedMsg :=
  if MAX_OUTGOING_QUEUE ≤ q.length then q.tail ++ [m] else q ++ [m]

/-! ## Concrete fixtures used by witnesses and counterexamples -/

/-- A concrete configuration. -/
def testCfg : SignalConfig := ⟨"+15550001111", "Echo"⟩

/-- A concrete environment: empty name database, everything registered, no
attachments directory, no transcription. -/
def testEnv : ProcEnv :=
  { lookupSenderName := fun _ => none
  , registered := fun _ => true
  , cliDir := none
  , attachmentFiles := none
  , transcribe := fun _ => none
  , isoOf := fun t => "iso-" ++ toString t
  , nowIso := "iso-now"
  , now := 42 }

/-- A direct message whose body is the discovery command (with surrounding
space and mixed case). -/
def msgChatId : ProcMsg :=
  { sourceId := some "+15552220000", sourceName := "A", timestamp := some 5
  , message := some " /ChatID ", groupInfo := none, isFromMe := false
  , rawAttachments := none, rawQuote := none, rawReaction := none }

/-- A reaction-removal payload. -/
def rRemove : RawReaction :=
  { emoji := some "👍", isRemove := true, targetAuthorNumber := some "+15553330000"
  , targetAuthorUuid := none, targetAuthor := none, targetSentTimestamp := some 7 }

/-- A message carrying text and a reaction removal. -/
def msgRemove : ProcMsg :=
  { sourceId := some "+15553330000", sourceName := "B", timestamp := some 6
  , message := some "hi", groupInfo := none, isFromMe := false
  , rawAttachments := none, rawQuote := none, rawReaction := some rRemove }

/-- 150 characters of quoted text, above the 100-unit truncation threshold. -/
def longQuoteText : String := String.mk (List.replicate 150 'a')

/-- A raw quote whose text is 150 characters long. -/
def rqLong : RawQuote :=
  { authorNumber := none, authorUuid := none, author := some "+15554440000"
  , text := some longQuoteText }

/-- A message replying to the long quote. -/
def msgLongQuote : ProcMsg :=
  { sourceId := some "+15554440000", sourceName := "D", timestamp := some 3
  , message := some "hello", groupInfo := none, isFromMe := false
  , rawAttachments := none, rawQuote := some rqLong, rawReaction := none }

/-- An echo payload with no destination fields at all. -/
def smNoDest : SentMsg :=
  { destinationNumber := none, destinationUuid := none, destination := none
  , timestamp := some 9, message := some "hi", mentions := none
  , groupInfo := none, attachments := none, quote := none, reaction := none }

/-- An echo envelope whose sent message has no destination: the code falls
back to the envelope source. -/
def envNoDest : Envelope :=
  { sourceNumber := some "+15559990000", sourceUuid := none, source := none
  , sourceName := some "Me", timestamp := some 7
  , dataMessage := none, syncMessage := some ⟨some smNoDest⟩ }

/-- The `ProcMsg` that `handleEnvelope` produces for `envNoDest`. -/
def procNoDest : ProcMsg :=
  { sourceId := some "+15559990000", sourceName := "Me", timestamp := some 9
  , message := some "hi", groupInfo := none, isFromMe := true
  , rawAttachments := none, rawQuote := none, rawReaction := none }

/-- An echo payload with a destination number present. -/
def smWithDest : SentMsg :=
  { destinationNumber := some "+15551112222", destinationUuid := none
  , destination := none, timestamp := some 9, message := some "hi"
  , mentions := none, groupInfo := none, attachments := none, quote := none
  , reaction := none }

/-- An echo envelope with a destination number. -/
def envWithDest : Envelope :=
  { sourceNumber := some "+15559990000", sourceUuid := none, source := none
  , sourceName := some "Me", timestamp := some 7
  , dataMessage := none, syncMessage := some ⟨some smWithDest⟩ }

/-- The `ProcMsg` that `handleEnvelope` produces for `envWithDest`. -/
def procWithDest : ProcMsg :=
  { sourceId := some "+15551112222", sourceName := "Me", timestamp := some 9
  , message := some "hi", groupInfo := none, isFromMe := true
  , rawAttachments := none, rawQuote := none, rawReaction := none }

/-- A mention descriptor pointing at the sentinel in `"hi ￼"`. -/
def mentionBob : Mention :=
  { start := 3, length := some 1, number := some "+15550009999", name := some "Bob" }

/-- C1, formalized as the frozen claim states it: on every envelope of the
echo shape, a delivered record's chat identity is `signal:` followed by one
of the sent message's destination fields. -/
def EchoDestinationClaim : Prop :=
  ∀ (cfg : SignalConfig) (env : ProcEnv) (e : Envelope) (sm : SentMsg)
    (rec : InMsg),
    e.syncMessage = some ⟨some sm⟩ →
    (handleEnvelopeOutcome cfg env e).delivered = some rec →
    ∃ d, rec.chat_jid = "signal:" ++ d ∧
      (sm.destinationNumber = some d ∨ sm.destinationUuid = some d ∨
        sm.destination = some d)

/-! ## Properties of the match-collection state (for the code-span
protection and span well-formedness claims) -/

/-- An index already claimed by earlier matches (marker or protected). -/
def Claimed (st : ScanState) (i : Nat) : Prop :=
  i ∈ st.markers ∨ i ∈ st.prot

/-- Every accepted code span has its whole range (delimiters and interior)
claimed in the state. -/
def CodeCovered (st : ScanState) : Prop :=
  ∀ c ∈ st.accepted, c.style = Style.MONOSPACE →
    ∀ i, c.openStart ≤ i → i < c.closeEnd → Claimed st i

/-- No accepted non-code match touches any index of any accepted code span
(delimiters or interior). -/
def CodeDisjoint (st : ScanState) : Prop :=
  ∀ c ∈ st.accepted, c.style = Style.MONOSPACE →
    ∀ m ∈ st.accepted, m.style ≠ Style.MONOSPACE →
    ∀ i, c.openStart ≤ i → i < c.closeEnd →
      ¬(m.openStart ≤ i ∧ i < m.closeEnd)

/-! ## Claims -/

theorem mem_rangeSet (lo hi i : Nat) : i ∈ rangeSet lo hi ↔ lo ≤ i ∧ i < hi := by
  rw [rangeSet, List.mem_range'_1]
  omega

/-- A rejected candidate's range is disjoint from everything claimed. -/
theorem not_claimed_of_no_overlap (st : ScanState) (lo hi i : Nat)
    (h : overlapsClaimed st lo hi = false) (h1 : lo ≤ i) (h2 : i < hi) :
    ¬ Claimed st i := by
  intro hc
  unfold overlapsClaimed at h
  have hmem : i ∈ rangeSet lo hi := (mem_rangeSet lo hi i).mpr ⟨h1, h2⟩
  have hfalse := List.any_eq_false.mp h i hmem
  rcases hc with hm | hp
  · exact hfalse ((Bool.or_eq_true _ _).mpr (Or.inl (List.elem_iff.mpr hm)))
  · exact hfalse ((Bool.or_eq_true _ _).mpr (Or.inr (List.elem_iff.mpr hp)))

/-- Claimed indices stay claimed across one pattern-loop iteration. -/
theorem claimed_mono_applyRaw (st : ScanState) (m : MarkerMatch) (i : Nat)
    (h : Claimed st i) : Claimed (applyRaw st m) i := by
  unfold applyRaw
  split
  · exact h
  · rcases h with hm | hp
    · exact Or.inl (List.mem_append_left _ (List.mem_append_left _ hm))
    · exact Or.inr (List.mem_append_left _ hp)

/-- Accepted matches of the new state come from the old state or are the
candidate itself. -/
theorem accepted_sub_applyRaw (st : ScanState) (m c : MarkerMatch)
    (h : c ∈ (applyRaw st m).accepted) : c ∈ st.accepted ∨ c = m := by
  unfold applyRaw at h
  split at h
  · exact Or.inl h
  · rcases List.mem_append.mp h with h1 | h1
    · exact Or.inl h1
    · exact Or.inr (by simpa using h1)

/-- One pattern-loop iteration preserves code-span coverage: an accepted
code span's indices are claimed in full (delimiters as markers, interior as
protected). -/
theorem codeCovered_applyRaw (st : ScanState) (m : MarkerMatch)
    (h : CodeCovered st) : CodeCovered (applyRaw st m) := by
  intro c hc hcm i h1 h2
  unfold applyRaw at hc ⊢
  split at hc
  · next hov =>
    rw [if_pos hov]
    exact h c hc hcm i h1 h2
  · next hov =>
    rw [if_neg hov]
    rcases List.mem_append.mp hc with hold | hnew
    · rcases h c hold hcm i h1 h2 with hm | hp
      · exact Or.inl (List.mem_append_left _ (List.mem_append_left _ hm))
      · exact Or.inr (List.mem_append_left _ hp)
    · have hcm2 : c = m := by simpa using hnew
      subst hcm2
      by_cases hi1 : i < c.openEnd
      · exact Or.inl (List.mem_append_left _
          (List.mem_append_right _ ((mem_rangeSet _ _ _).mpr ⟨h1, hi1⟩)))
      · by_cases hi2 : i < c.closeStart
        · refine Or.inr (List.mem_append_right _ ?_)
          rw [if_pos hcm]
          exact (mem_rangeSet _ _ _).mpr ⟨Nat.le_of_not_lt hi1, hi2⟩
        · exact Or.inl (List.mem_append_right _
            ((mem_rangeSet _ _ _).mpr ⟨Nat.le_of_not_lt hi2, h2⟩))

/-- One pattern-loop iteration on a non-code candidate preserves the
disjointness invariant. -/
theorem codeDisjoint_applyRaw (st : ScanState) (m : MarkerMatch)
    (hm : m.style ≠ Style.MONOSPACE) (hcov : CodeCovered st)
    (hdis : CodeDisjoint st) : CodeDisjoint (applyRaw st m) := by
  intro c hc hcm mm hmm hmmst i h1 h2 hcontra
  rcases accepted_sub_applyRaw st m c hc with hcold | rfl
  · rcases accepted_sub_applyRaw st m mm hmm with hmmold | heq
    · exact hdis c hcold hcm mm hmmold hmmst i h1 h2 hcontra
    · -- the new candidate was accepted, so its range passed the overlap
      -- check, yet index i is claimed by the old code span c
      have hclaimed : Claimed st i := hcov c hcold hcm i h1 h2
      unfold applyRaw at hmm
      split at hmm
      · next hov =>
        exact hdis c hcold hcm mm hmm hmmst i h1 h2 hcontra
      · next hov =>
        have hov2 : overlapsClaimed st m.openStart m.closeEnd = false := by
          simpa using hov
        rw [heq] at hcontra
        exact not_claimed_of_no_overlap st _ _ i hov2 hcontra.1 hcontra.2
          hclaimed
  · exact absurd hcm hm

/-- Folding a whole pattern's raw matches preserves coverage. -/
theorem codeCovered_fold (raws : List MarkerMatch) (st : ScanState)
    (h : CodeCovered st) : CodeCovered (raws.foldl applyRaw st) := by
  induction raws generalizing st with
  | nil => exact h
  | cons r rest ih => exact ih _ (codeCovered_applyRaw st r h)

/-- Folding a non-code pattern's raw matches preserves disjointness. -/
theorem codeDisjoint_fold (raws : List MarkerMatch)
    (hall : ∀ m ∈ raws, m.style ≠ Style.MONOSPACE) (st : ScanState)
    (hcov : CodeCovered st) (hdis : CodeDisjoint st) :
    CodeDisjoint (raws.foldl applyRaw st) := by
  induction raws generalizing st with
  | nil => exact hdis
  | cons r rest ih =>
    exact ih (fun m hm => hall m (List.mem_cons_of_mem r hm)) _
      (codeCovered_applyRaw st r hcov)
      (codeDisjoint_applyRaw st r (hall r (List.mem_cons_self r rest)) hcov hdis)

/-- Accepted matches after folding a pattern come from the old state or the
pattern's raw matches. -/
theorem accepted_sub_fold (raws : List MarkerMatch) (st : ScanState)
    (c : MarkerMatch) (h : c ∈ (raws.foldl applyRaw st).accepted) :
    c ∈ st.accepted ∨ c ∈ raws := by
  induction raws generalizing st with
  | nil => exact Or.inl h
  | cons r rest ih =>
    rcases ih (applyRaw st r) h with h1 | h1
    · rcases accepted_sub_applyRaw st r c h1 with h2 | h2
      · exact Or.inl h2
      · exact Or.inr (h2 ▸ List.mem_cons_self r rest)
    · exact Or.inr (List.mem_cons_of_mem r h1)

/-- Every record built by `mkMatches` carries the pattern's style. -/
theorem mkMatches_style (style : Style) (markerLen : Nat)
    (ps : List (Nat × Nat)) (m : MarkerMatch) (h : m ∈ mkMatches style markerLen ps) :
    m.style = style := by
  unfold mkMatches at h
  obtain ⟨p, _, rfl⟩ := List.mem_map.mp h
  rfl

/-- C4, general half: in the final match-collection state, indices claimed
by an accepted code span (its delimiters and its interior) are disjoint from
every accepted match of any other style; plus the concrete instance:
backtick-wrapped `*x*` yields stripped text `*x*` with exactly one MONOSPACE
span of length 3 and no BOLD span. -/
theorem code_spans_protected (input : List Nat) :
    CodeDisjoint (collectMatches input) ∧
    parseSignalStyles [96, 42, 120, 42, 96] =
      ⟨[42, 120, 42], [⟨Style.MONOSPACE, 0, 3⟩]⟩ := by
  refine ⟨?_, by decide⟩
  unfold collectMatches rawMatchLists
  simp only [List.foldl_cons, List.foldl_nil]
  have hinit_cov : CodeCovered ⟨[], [], []⟩ := by
    intro c hc
    simp at hc
  have h1cov := codeCovered_fold (mkMatches .MONOSPACE 1 (monoPairs input))
    ⟨[], [], []⟩ hinit_cov
  have h1dis : CodeDisjoint
      ((mkMatches .MONOSPACE 1 (monoPairs input)).foldl applyRaw ⟨[], [], []⟩) := by
    intro c hc hcm mm hmm hmmst i h1 h2 hcontra
    rcases accepted_sub_fold _ _ mm hmm with h3 | h3
    · simp at h3
    · exact hmmst (mkMatches_style _ _ _ mm h3)
  -- the five non-code patterns, in order
  have hstep := fun (style : Style) (markerLen : Nat) (ps : List (Nat × Nat))
      (hne : style ≠ Style.MONOSPACE) (st : ScanState)
      (hcov : CodeCovered st) (hdis : CodeDisjoint st) =>
    And.intro (codeCovered_fold (mkMatches style markerLen ps) st hcov)
      (codeDisjoint_fold (mkMatches style markerLen ps)
        (fun m hm => (mkMatches_style style markerLen ps m hm) ▸ hne)
        st hcov hdis)
  have h2 := hstep .SPOILER 2
    (scanPairs (attemptDbl 124 input) (input.length + 1) 0) (by decide)
    _ h1cov h1dis
  have h3 := hstep .STRIKETHROUGH 2
    (scanPairs (attemptDbl 126 input) (input.length + 1) 0) (by decide)
    _ h2.1 h2.2
  have h4 := hstep .STRIKETHROUGH 1
    (scanPairs (attemptSingle 126 input) (input.length + 1) 0) (by decide)
    _ h3.1 h3.2
  have h5 := hstep .BOLD 1
    (scanPairs (attemptSingle 42 input) (input.length + 1) 0) (by decide)
    _ h4.1 h4.2
  have h6 := hstep .ITALIC 1
    (scanPairs (attemptItalic input) (input.length + 1) 0) (by decide)
    _ h5.1 h5.2
  exact h6.2

/-- Invariant of the strip loop: every index-map entry is -1 or a valid
position of the output built so far. -/
theorem stripStep_fold_inv (markers : List Nat) (input : List Nat)
    (acc : List Int × List Nat)
    (hacc : ∀ v ∈ acc.1, v = -1 ∨ (0 ≤ v ∧ v < (acc.2.length : Int))) :
    ∀ v ∈ (input.foldl (stripStep markers) acc).1,
      v = -1 ∨ (0 ≤ v ∧ v < (((input.foldl (stripStep markers) acc).2.length : Int))) := by
  induction input generalizing acc with
  | nil => simpa using hacc
  | cons c rest ih =>
    simp only [List.foldl_cons]
    apply ih
    unfold stripStep
    split
    · intro v hv
      rcases List.mem_append.mp hv with h1 | h1
      · exact hacc v h1
      · left
        simpa using h1
    · intro v hv
      rcases List.mem_append.mp hv with h1 | h1
      · rcases hacc v h1 with h2 | h2
        · exact Or.inl h2
        · refine Or.inr ⟨h2.1, lt_of_lt_of_le h2.2 ?_⟩
          simp only [List.length_append, List.length_cons, List.length_nil]
          omega
      · refine Or.inr ?_
        have hv2 : v = (acc.2.length : Int) := by simpa using h1
        subst hv2
        refine ⟨Int.ofNat_nonneg _, ?_⟩
        simp only [List.length_append, List.length_cons, List.length_nil]
        omega

/-- The index map of `buildOut` only holds -1 or valid output positions. -/
theorem buildOut_inv (markers : List Nat) (input : List Nat) :
    ∀ v ∈ (buildOut markers input).1,
      v = -1 ∨ (0 ≤ v ∧ v < (((buildOut markers input).2.length : Int))) := by
  unfold buildOut
  exact stripStep_fold_inv markers input ([], []) (by intro v hv; simp at hv)

/-- A getD result other than the default is a member of the list. -/
theorem getD_mem_of_ne (l : List Int) (k : Nat) (h : l.getD k (-1) ≠ -1) :
    l.getD k (-1) ∈ l := by
  have hx : l[k]? = l.get? k := (List.get?_eq_getElem? l k).symm
  cases hg : l.get? k with
  | none =>
    exfalso
    apply h
    have hg2 : l[k]? = none := hx.trans hg
    simp [List.getD, hg2]
  | some v =>
    have hg2 : l[k]? = some v := hx.trans hg
    have hv : l.getD k (-1) = v := by simp [List.getD, hg2]
    rw [hv]
    exact List.get?_mem hg

/-- The downward content scan returns an index whose map entry is not -1. -/
theorem lastContent_some (indexMap : List Int) (openEnd : Nat) :
    ∀ fuel k last, lastContent indexMap openEnd fuel k = some last →
      indexMap.getD last (-1) ≠ -1 := by
  intro fuel
  induction fuel with
  | zero =>
    intro k last h
    simp [lastContent] at h
  | succ n ih =>
    intro k last h
    unfold lastContent at h
    split at h
    · simp at h
    · split at h
      · split at h
        · simp at h
        · exact ih _ _ h
      · next hne =>
        have hk := Option.some.inj h
        subst hk
        simpa using hne

/-- Any span emitted for one match is well-formed over an output of the
index map's bound. -/
theorem spanOfMatch_wf (indexMap : List Int) (outLen : Nat)
    (hinv : ∀ v ∈ indexMap, v = -1 ∨ (0 ≤ v ∧ v < (outLen : Int)))
    (m : MarkerMatch) (sp : TextStyle)
    (h : spanOfMatch indexMap m = some sp) :
    1 ≤ sp.length ∧ sp.start + sp.length ≤ outLen := by
  unfold spanOfMatch at h
  split at h
  · simp at h
  · cases hlast : lastContent indexMap m.openEnd m.closeStart (m.closeStart - 1) with
    | none => rw [hlast] at h; simp at h
    | some last =>
      rw [hlast, Option.some_bind] at h
      split at h
      · simp at h
      · next hstart =>
        split at h
        · next hlen =>
          have hsp := Option.some.inj h
          subst hsp
          have hsne : indexMap.getD m.openEnd (-1) ≠ -1 := by
            simpa using hstart
          have hsmem := getD_mem_of_ne indexMap m.openEnd hsne
          have hsbound := hinv _ hsmem
          have hene : indexMap.getD last (-1) ≠ -1 :=
            lastContent_some indexMap m.openEnd _ _ last hlast
          have hemem := getD_mem_of_ne indexMap last hene
          have hebound := hinv _ hemem
          rcases hsbound with hs | hs
          · exact absurd hs hsne
          · rcases hebound with he | he
            · exact absurd he hene
            · constructor
              · simp only
                omega
              · simp only
                omega
        · simp at h

/-- Every span produced by the span-building loop is well-formed. -/
theorem buildSpans_wf (indexMap : List Int) (outLen : Nat)
    (hinv : ∀ v ∈ indexMap, v = -1 ∨ (0 ≤ v ∧ v < (outLen : Int)))
    (ms : List MarkerMatch) :
    ∀ sp ∈ buildSpans indexMap ms,
      1 ≤ sp.length ∧ sp.start + sp.length ≤ outLen := by
  unfold buildSpans
  suffices hgen : ∀ acc, (∀ sp ∈ acc, 1 ≤ sp.length ∧ sp.start + sp.length ≤ outLen) →
      ∀ sp ∈ ms.foldl (fun acc m =>
        match spanOfMatch indexMap m with
        | some sp => acc ++ [sp]
        | none => acc) acc,
        1 ≤ sp.length ∧ sp.start + sp.length ≤ outLen by
    exact hgen [] (by intro sp hsp; simp at hsp)
  induction ms with
  | nil => intro acc hacc; simpa using hacc
  | cons m rest ih =>
    intro acc hacc
    simp only [List.foldl_cons]
    apply ih
    cases hm : spanOfMatch indexMap m with
    | none => simpa [hm] using hacc
    | some sp' =>
      simp only [hm]
      intro sp hsp
      rcases List.mem_append.mp hsp with h1 | h1
      · exact hacc sp h1
      · have : sp = sp' := by simpa using h1
        subst this
        exact spanOfMatch_wf indexMap outLen hinv m sp hm

/-- Membership is preserved backwards through the stable insertion. -/
theorem mem_insertSpan (x y : TextStyle) (l : List TextStyle)
    (h : x ∈ insertSpan y l) : x = y ∨ x ∈ l := by
  induction l with
  | nil =>
    unfold insertSpan at h
    simpa using h
  | cons z zs ih =>
    unfold insertSpan at h
    split at h
    · rcases List.mem_cons.mp h with h1 | h1
      · exact Or.inr (h1 ▸ List.mem_cons_self z zs)
      · rcases ih h1 with h2 | h2
        · exact Or.inl h2
        · exact Or.inr (List.mem_cons_of_mem z h2)
    · rcases List.mem_cons.mp h with h1 | h1
      · exact Or.inl h1
      · exact Or.inr h1

/-- Fold form of the stable-sort membership fact. -/
theorem mem_sortSpans_fold (x : TextStyle) (l : List TextStyle) :
    ∀ acc, x ∈ l.foldl (fun acc y => insertSpan y acc) acc →
      x ∈ acc ∨ x ∈ l := by
  induction l with
  | nil => intro acc h1; exact Or.inl (by simpa using h1)
  | cons y ys ih =>
    intro acc h1
    simp only [List.foldl_cons] at h1
    rcases ih (insertSpan y acc) h1 with h2 | h2
    · rcases mem_insertSpan x y acc h2 with h3 | h3
      · exact Or.inr (h3 ▸ List.mem_cons_self y ys)
      · exact Or.inl h3
    · exact Or.inr (List.mem_cons_of_mem y h2)

/-- Membership is preserved backwards through the stable sort. -/
theorem mem_sortSpans (x : TextStyle) (l : List TextStyle)
    (h : x ∈ sortSpans l) : x ∈ l := by
  unfold sortSpans at h
  rcases mem_sortSpans_fold x l [] h with h1 | h1
  · simp at h1
  · exact h1

/-- C9: every span reported by `parseSignalStyles` is well-formed over the
stripped text: positive length and end within the text's UTF-16 length
(start is a `Nat`, hence nonnegative by construction). -/
theorem parseSignalStyles_spans_wellformed (input : List Nat) :
    ∀ sp ∈ (parseSignalStyles input).textStyle,
      1 ≤ sp.length ∧
      sp.start + sp.length ≤ (parseSignalStyles input).text.length := by
  unfold parseSignalStyles
  split
  · intro sp hsp
    simp at hsp
  · split
    · intro sp hsp
      simp at hsp
    · intro sp hsp
      simp only at hsp ⊢
      have hmem := mem_sortSpans sp _ hsp
      exact buildSpans_wf (buildOut (collectMatches input).markers input).1
        (buildOut (collectMatches input).markers input).2.length
        (buildOut_inv (collectMatches input).markers input)
        (collectMatches input).accepted sp hmem

/-- C9 witness: the bold span of a concrete input satisfies the bounds. -/
theorem parseSignalStyles_spans_wellformed_witness :
    (⟨Style.BOLD, 3, 2⟩ : TextStyle) ∈
      (parseSignalStyles [104, 105, 32, 42, 111, 107, 42]).textStyle ∧
    (1 ≤ (2 : Nat) ∧ (3 : Nat) + 2 ≤
      (parseSignalStyles [104, 105, 32, 42, 111, 107, 42]).text.length) :=
  ⟨by decide,
   parseSignalStyles_spans_wellformed [104, 105, 32, 42, 111, 107, 42]
     ⟨Style.BOLD, 3, 2⟩ (by decide)⟩

/-- C4 witness: in a string holding a code span and a bold span, the general
theorem applies to the two accepted matches (96/97/32/42/98 are the code
units of the backtick, a, space, asterisk and b). -/
theorem code_spans_protected_witness :
    (⟨0, 1, 2, 3, Style.MONOSPACE⟩ : MarkerMatch) ∈
      (collectMatches [96, 97, 96, 32, 42, 98, 42]).accepted ∧
    (⟨4, 5, 6, 7, Style.BOLD⟩ : MarkerMatch) ∈
      (collectMatches [96, 97, 96, 32, 42, 98, 42]).accepted ∧
    ¬((4 : Nat) ≤ 0 ∧ (0 : Nat) < 7) :=
  ⟨by decide, by decide,
   (code_spans_protected [96, 97, 96, 32, 42, 98, 42]).1
     ⟨0, 1, 2, 3, Style.MONOSPACE⟩ (by decide) rfl
     ⟨4, 5, 6, 7, Style.BOLD⟩ (by decide) (by decide) 0 (by decide) (by decide)⟩

/-- C2: an RPC call issued when the number of outstanding pending calls has
reached the cap of 100 rejects immediately, writes nothing to stdin, and
leaves the correlation table (and the id counter) unchanged. -/
theorem rpc_call_at_cap_rejects (method : String) (st : RpcState)
    (writable : Bool) (h : MAX_PENDING_RPC ≤ st.pendingIds.length) :
    rpcCall method st writable = (st, RpcOutcome.rejectedCap, []) := by
  simp [rpcCall, h]

/-- C2 witness: a concrete table holding 100 pending ids rejects a send. -/
theorem rpc_call_at_cap_rejects_witness :
    MAX_PENDING_RPC ≤ (List.replicate 100 "rpc-0").length ∧
    rpcCall "send" ⟨List.replicate 100 "rpc-0", 120⟩ true =
      (⟨List.replicate 100 "rpc-0", 120⟩, RpcOutcome.rejectedCap, []) :=
  ⟨by rw [List.length_replicate]; exact Nat.le_refl 100,
   rpc_call_at_cap_rejects "send" ⟨List.replicate 100 "rpc-0", 120⟩ true
     (by rw [List.length_replicate]; exact Nat.le_refl 100)⟩

/-- C3: enqueueing keeps the outbound queue at or below 1000 entries, and an
enqueue onto a full queue of exactly 1000 entries removes the single oldest
entry, appends the new one at the back (preserving the relative order of the
survivors), and leaves the queue at exactly 1000 entries. -/
theorem outgoing_queue_drop_oldest (q : List QueuedMsg) (m : QueuedMsg)
    (h : q.length ≤ MAX_OUTGOING_QUEUE) :
    (enqueueOutgoing q m).length ≤ MAX_OUTGOING_QUEUE ∧
    (q.length = MAX_OUTGOING_QUEUE →
      enqueueOutgoing q m = q.tail ++ [m] ∧
      (enqueueOutgoing q m).length = MAX_OUTGOING_QUEUE) := by
  constructor
  · unfold enqueueOutgoing
    simp only [MAX_OUTGOING_QUEUE] at h ⊢
    split
    · simp only [List.length_append, List.length_tail, List.length_cons,
        List.length_nil]
      omega
    · simp only [List.length_append, List.length_cons, List.length_nil]
      omega
  · intro he
    have hc : MAX_OUTGOING_QUEUE ≤ q.length := he.ge
    unfold enqueueOutgoing
    rw [if_pos hc]
    refine ⟨rfl, ?_⟩
    simp only [List.length_append, List.length_tail, List.length_cons,
      List.length_nil]
    simp only [MAX_OUTGOING_QUEUE] at he ⊢
    omega

/-- C3 witness: a concrete full queue of 1000 entries. -/
theorem outgoing_queue_drop_oldest_witness :
    (List.replicate 1000 (⟨"signal:+1", "hello", none⟩ : QueuedMsg)).length ≤
        MAX_OUTGOING_QUEUE ∧
    ((enqueueOutgoing (List.replicate 1000 ⟨"signal:+1", "hello", none⟩)
        ⟨"signal:+2", "new", none⟩).length ≤ MAX_OUTGOING_QUEUE ∧
      ((List.replicate 1000 (⟨"signal:+1", "hello", none⟩ : QueuedMsg)).length =
          MAX_OUTGOING_QUEUE →
        enqueueOutgoing (List.replicate 1000 ⟨"signal:+1", "hello", none⟩)
            ⟨"signal:+2", "new", none⟩ =
          (List.replicate 1000 (⟨"signal:+1", "hello", none⟩ : QueuedMsg)).tail
            ++ [⟨"signal:+2", "new", none⟩] ∧
        (enqueueOutgoing (List.replicate 1000 ⟨"signal:+1", "hello", none⟩)
            ⟨"signal:+2", "new", none⟩).length = MAX_OUTGOING_QUEUE)) :=
  ⟨by rw [List.length_replicate]; exact Nat.le_refl 1000,
   outgoing_queue_drop_oldest _ _
     (by rw [List.length_replicate]; exact Nat.le_refl 1000)⟩

/-- C6: span offsets and lengths are measured in UTF-16 code units of the
stripped text: a leading non-BMP character (the surrogate pair 0xD83D 0xDE00)
followed by a space and a bold pair yields a span starting at 3, and a
non-BMP character inside the bold content counts as 2 units of length. -/
theorem utf16_offsets_nonbmp :
    parseSignalStyles [55357, 56832, 32, 42, 97, 42] =
      ⟨[55357, 56832, 32, 97], [⟨Style.BOLD, 3, 1⟩]⟩ ∧
    parseSignalStyles [55357, 56832, 32, 42, 55357, 56832, 42] =
      ⟨[55357, 56832, 32, 55357, 56832], [⟨Style.BOLD, 3, 2⟩]⟩ := by
  constructor <;> decide

/-- Shape lemma: a delivered record is exactly `deliveredRec` at the
computed chat jid. -/
theorem processMessage_delivered_some (cfg : SignalConfig) (env : ProcEnv)
    (msg : ProcMsg) (rec : InMsg)
    (hd : (processMessage cfg env msg).delivered = some rec) :
    ∃ chatJid isGroup, jidOf msg = some (chatJid, isGroup) ∧
      rec = deliveredRec cfg env msg chatJid := by
  unfold processMessage at hd
  rcases hj : jidOf msg with _ | ⟨chatJid, isGroup⟩ <;> rw [hj] at hd
  · simp at hd
  · refine ⟨chatJid, isGroup, rfl, ?_⟩
    by_cases hc : isChatIdCommand msg.message
    · simp [hc] at hd
    · simp only [hc, Bool.false_eq_true, if_false] at hd
      by_cases hr : env.registered chatJid
      · simp only [hr, Bool.not_true, Bool.false_eq_true, if_false] at hd
        by_cases ht : jsTrim (contentOf cfg env msg) = ""
        · simp [ht] at hd
        · simp only [ht, if_false] at hd
          simpa using hd.symm
      · simp only [hr] at hd
        simp at hd

/-- C7: a message whose resolved body is the `/chatid` command (after trim
and case fold) short-circuits: the decoder replies with the chat identity
and forwards nothing (no metadata call, no handler call). -/
theorem chatid_command_intercepted (cfg : SignalConfig) (env : ProcEnv)
    (msg : ProcMsg) (chatJid : String) (isGroup : Bool)
    (hj : jidOf msg = some (chatJid, isGroup))
    (hc : isChatIdCommand msg.message = true) :
    processMessage cfg env msg =
      { chatIdReply := some (chatJid, "Chat ID: " ++ chatJid)
      , metadata := none, delivered := none } := by
  unfold processMessage
  rw [hj]
  simp [hc]

/-- C7 witness: a concrete `" /ChatID "` body triggers the reply. -/
theorem chatid_command_intercepted_witness :
    jidOf msgChatId = some ("signal:+15552220000", false) ∧
    isChatIdCommand msgChatId.message = true ∧
    processMessage testCfg testEnv msgChatId =
      { chatIdReply := some ("signal:+15552220000",
          "Chat ID: " ++ "signal:+15552220000")
      , metadata := none, delivered := none } :=
  ⟨by decide, by decide,
   chatid_command_intercepted testCfg testEnv msgChatId "signal:+15552220000"
     false (by decide) (by decide)⟩

/-- C8: a reaction event with the removal flag set never materializes a
reaction: any delivered record carries no reaction field. -/
theorem reaction_removal_not_materialized (cfg : SignalConfig) (env : ProcEnv)
    (msg : ProcMsg) (r : RawReaction) (rec : InMsg)
    (hr : msg.rawReaction = some r) (hrem : r.isRemove = true)
    (hd : (processMessage cfg env msg).delivered = some rec) :
    rec.reaction = none := by
  obtain ⟨chatJid, isGroup, hj, hrec⟩ :=
    processMessage_delivered_some cfg env msg rec hd
  subst hrec
  simp only [deliveredRec, builtReactionOf, hr, Option.some_bind]
  unfold buildReaction
  cases truthyStr r.emoji
  · rfl
  · simp [hrem]

/-- C8 witness: a concrete removal notification is delivered (its text
survives) with no reaction on the record. -/
theorem reaction_removal_not_materialized_witness :
    msgRemove.rawReaction = some rRemove ∧ rRemove.isRemove = true ∧
    (processMessage testCfg testEnv msgRemove).delivered =
      some (deliveredRec testCfg testEnv msgRemove "signal:+15553330000") ∧
    (deliveredRec testCfg testEnv msgRemove "signal:+15553330000").reaction =
      none :=
  ⟨rfl, rfl, by decide,
   reaction_removal_not_materialized testCfg testEnv msgRemove rRemove
     (deliveredRec testCfg testEnv msgRemove "signal:+15553330000")
     rfl rfl (by decide)⟩

/-- Bound on the truncated snippet: at most 100 characters plus the
three-character ellipsis. -/
theorem truncQuote_length_le (t : String) : (truncQuote t).length ≤ 103 := by
  unfold truncQuote
  split
  · have he : (String.mk (t.data.take 100) ++ "...") =
        String.mk (t.data.take 100 ++ ['.', '.', '.']) := rfl
    rw [he]
    show (t.data.take 100 ++ ['.', '.', '.']).length ≤ 103
    have hl : t.length = t.data.length := rfl
    simp only [List.length_append, List.length_take, List.length_cons,
      List.length_nil]
    omega
  · next h =>
    omega

/-- C5 counterexample: the quote object handed to the handler carries the
raw 150-character snippet unchanged, exceeding the 103-unit bound that the
code's own truncation (`truncQuote`) enforces on the inline content line. -/
theorem quote_forwarded_untruncated_counterexample :
    ((processMessage testCfg testEnv msgLongQuote).delivered.map InMsg.quote) =
      some (some ⟨"+15554440000", longQuoteText⟩) ∧
    longQuoteText.length = 150 ∧
    (truncQuote longQuoteText).length = 103 ∧
    ¬(longQuoteText.length ≤ 103) := by
  refine ⟨by decide, ?_, by decide, ?_⟩
  · show (List.replicate 150 'a').length = 150
    exact List.length_replicate 150 'a'
  · show ¬((List.replicate 150 'a').length ≤ 103)
    rw [List.length_replicate]
    omega

/-- C5 amended: whenever a quoted message is delivered, the record's quote
field carries the untruncated raw snippet, while the inline content line
(`quotePart`, which applies `truncQuote`) is the only truncated rendering,
bounded by 103 units. -/
theorem quote_truncated_only_in_content (cfg : SignalConfig) (env : ProcEnv)
    (msg : ProcMsg) (rec : InMsg) (rq : RawQuote)
    (hq : msg.rawQuote = some rq)
    (hd : (processMessage cfg env msg).delivered = some rec) :
    rec.quote = some (buildQuote env rq) ∧
    (buildQuote env rq).text = jsOrStr rq.text "" ∧
    quotePart (buildQuote env rq) ∈ contentPartsOf cfg env msg ∧
    (truncQuote (buildQuote env rq).text).length ≤ 103 := by
  obtain ⟨chatJid, isGroup, hj, hrec⟩ :=
    processMessage_delivered_some cfg env msg rec hd
  subst hrec
  refine ⟨by simp [deliveredRec, builtQuoteOf, hq], rfl, ?_, truncQuote_length_le _⟩
  simp [contentPartsOf, builtQuoteOf, hq]

/-- C5 amended witness: the long-quote fixture. -/
theorem quote_truncated_only_in_content_witness :
    msgLongQuote.rawQuote = some rqLong ∧
    (processMessage testCfg testEnv msgLongQuote).delivered =
      some (deliveredRec testCfg testEnv msgLongQuote "signal:+15554440000") ∧
    ((deliveredRec testCfg testEnv msgLongQuote "signal:+15554440000").quote =
        some (buildQuote testEnv rqLong) ∧
      (buildQuote testEnv rqLong).text = jsOrStr rqLong.text "" ∧
      quotePart (buildQuote testEnv rqLong) ∈
        contentPartsOf testCfg testEnv msgLongQuote ∧
      (truncQuote (buildQuote testEnv rqLong).text).length ≤ 103) :=
  ⟨rfl, by decide,
   quote_truncated_only_in_content testCfg testEnv msgLongQuote
     (deliveredRec testCfg testEnv msgLongQuote "signal:+15554440000")
     rqLong rfl (by decide)⟩

/-- Chaining lemma for the truthy-or fallback: a truthy value in the first
two links survives padding the chain on the right. -/
theorem jsOrOpt_truthy_left (a b c : Option String) (d : String)
    (h : truthyStr (jsOrOpt a b) = some d) :
    jsOrOpt a (jsOrOpt b c) = some d := by
  cases a with
  | none =>
    cases b with
    | none => simp [truthyStr, jsOrOpt] at h
    | some s =>
      by_cases hs : s = "" <;>
        simp_all [jsOrOpt, truthyStr]
  | some s =>
    by_cases hs : s = ""
    · cases b with
      | none => simp_all [jsOrOpt, truthyStr]
      | some s2 =>
        by_cases hs2 : s2 = "" <;> simp_all [jsOrOpt, truthyStr]
    · simp_all [jsOrOpt, truthyStr]

/-- A truthy extraction is never the empty string. -/
theorem truthyStr_ne_empty (a : Option String) (d : String)
    (h : truthyStr a = some d) : d ≠ "" := by
  cases a with
  | none => simp [truthyStr] at h
  | some s =>
    by_cases hs : s = "" <;> simp_all [truthyStr]

/-- C1 counterexample: the frozen claim (echo chat identity always comes
from a destination field) is false: an echo with no destination fields is
delivered with its chat identity taken from the envelope's source number. -/
theorem echo_destination_claim_false : ¬EchoDestinationClaim := by
  intro h
  obtain ⟨d, hjid, hdisj⟩ := h testCfg testEnv envNoDest smNoDest
    (deliveredRec testCfg testEnv procNoDest "signal:+15559990000")
    rfl (by decide)
  rcases hdisj with h1 | h1 | h1 <;> exact absurd h1 (by simp [smNoDest])

/-- C1 amended: for an echo envelope (no data message) whose sent message
has no group info and a truthy destination number or destination UUID, any
delivered record's chat identity is `signal:` followed by that destination;
without any destination the code falls back to the envelope source. -/
theorem echo_chat_identity_from_destination (cfg : SignalConfig)
    (env : ProcEnv) (e : Envelope) (sm : SentMsg) (d : String) (rec : InMsg)
    (hdm : e.dataMessage = none)
    (hsm : e.syncMessage = some ⟨some sm⟩)
    (hgi : sm.groupInfo = none)
    (hdest : truthyStr (jsOrOpt sm.destinationNumber
      (jsOrOpt sm.destinationUuid sm.destination)) = some d)
    (hd : (handleEnvelopeOutcome cfg env e).delivered = some rec) :
    rec.chat_jid = "signal:" ++ d := by
  unfold handleEnvelopeOutcome handleEnvelope at hd
  rw [hdm, hsm] at hd
  simp only at hd
  obtain ⟨chatJid, isGroup, hj, hrec⟩ :=
    processMessage_delivered_some _ _ _ _ hd
  subst hrec
  have hsrc := jsOrOpt_truthy_left sm.destinationNumber
    (jsOrOpt sm.destinationUuid sm.destination)
    (jsOrOpt e.sourceNumber (jsOrOpt e.sourceUuid e.source)) d hdest
  have hdne : d ≠ "" := truthyStr_ne_empty _ _ hdest
  rw [jidOf, groupIdOf] at hj
  simp only [hgi, hsrc, truthyStr, hdne, if_false] at hj
  simp only [Option.some.injEq, Prod.mk.injEq] at hj
  simp [deliveredRec, hj.1]

/-- C1 amended witness: a concrete echo with a destination number. -/
theorem echo_chat_identity_from_destination_witness :
    envWithDest.dataMessage = none ∧
    envWithDest.syncMessage = some ⟨some smWithDest⟩ ∧
    smWithDest.groupInfo = none ∧
    truthyStr (jsOrOpt smWithDest.destinationNumber
      (jsOrOpt smWithDest.destinationUuid smWithDest.destination)) =
      some "+15551112222" ∧
    (handleEnvelopeOutcome testCfg testEnv envWithDest).delivered =
      some (deliveredRec testCfg testEnv procWithDest "signal:+15551112222") ∧
    (deliveredRec testCfg testEnv procWithDest "signal:+15551112222").chat_jid =
      "signal:" ++ "+15551112222" :=
  ⟨rfl, rfl, rfl, rfl, by decide,
   echo_chat_identity_from_destination testCfg testEnv envWithDest smWithDest
     "+15551112222"
     (deliveredRec testCfg testEnv procWithDest "signal:+15551112222")
     rfl rfl rfl rfl (by decide)⟩

/-- C10: the current `resolveMentions` (with the U+FFFC fallback sweep) and
the earlier one (without it) agree on every input whose descriptor-phase
result contains no remaining sentinel, including absent or empty text. -/
theorem resolveMentions_refines_old (cfg : SignalConfig) (text : Option String)
    (mentions : Option (List Mention))
    (h : ∀ t, text = some t → hasFFFC (descriptorResult cfg t mentions) = false) :
    resolveMentions cfg text mentions = resolveMentionsOld cfg text mentions := by
  cases text with
  | none => rfl
  | some t =>
    by_cases ht : t = ""
    · subst ht
      simp [resolveMentions, resolveMentionsOld]
    · have hf := h t rfl
      have hs : sweepFFFC cfg (descriptorResult cfg t mentions) =
          descriptorResult cfg t mentions := by
        unfold sweepFFFC
        rw [hf]
        simp
      simp only [resolveMentions, resolveMentionsOld, if_neg ht, hs]
      unfold descriptorResult
      cases mentions with
      | none => rfl
      | some ms => by_cases hl : 0 < ms.length <;> simp [hl]

/-- C10 witness: one descriptor consuming the only sentinel. -/
theorem resolveMentions_refines_old_witness :
    hasFFFC (descriptorResult testCfg "hi ￼" (some [mentionBob])) = false ∧
    resolveMentions testCfg (some "hi ￼") (some [mentionBob]) =
      resolveMentionsOld testCfg (some "hi ￼") (some [mentionBob]) :=
  ⟨by decide,
   resolveMentions_refines_old testCfg (some "hi ￼") (some [mentionBob])
     (fun t ht => by
       obtain rfl : t = "hi ￼" := (Option.some.inj ht).symm
       decide)⟩

end NanoClaw
